import Mathlib

/-!
Shallow embedding of the CustomCrosshair window-mode controller
(src/crosshair_overlay_app.py, with the hotkey variants of
src/Custom_Crosshair_v2.py), together with proofs settling the spec claims.

Machine integers of the platform style word are modelled as Nat; Python
floor division `//` is modelled as Int.fdiv; the image-loading collaborator
(QPixmap decoding and scaling) is an explicit environment record.
-/

namespace CustomCrosshair

/-- A 2-D integer point, as PyQt's QPoint. -/
structure QPoint where
  x : Int
  y : Int
deriving DecidableEq, Repr

/-- A 2-D integer size, as PyQt's QSize. -/
structure QSize where
  width : Int
  height : Int
deriving DecidableEq, Repr

/-- The fields of the screen's availableGeometry that TrayMenuPopup.show_at
reads: left, right and bottom coordinates. -/
structure ScreenGeom where
  left : Int
  right : Int
  bottom : Int
deriving DecidableEq, Repr

/-- TrayMenuPopup.show_at position computation
(src/crosshair_overlay_app.py lines 128-146): start at the cursor, flip
vertically when the popup would pass the screen bottom, then clamp x to the
right edge, then clamp x to the left edge. -/
def show_at (pos : QPoint) (popup : QSize) (g : ScreenGeom) : QPoint :=
  let x0 := pos.x
  let y0 := pos.y
  let y1 := if y0 + popup.height > g.bottom then y0 - popup.height else y0
  let x1 := if x0 + popup.width > g.right then g.right - popup.width else x0
  let x2 := if x1 < g.left then g.left else x1
  ⟨x2, y1⟩

/-- The popup placement algorithm as the specification words it (for the
refinement comparison of claim C3): top-left at the cursor; a single binary
vertical flip when cursor.y plus the popup height exceeds the screen bottom;
then the x clamp so the right edge fits; the left-edge clamp is applied
last and takes precedence. -/
def placeSpec (cursor : QPoint) (popup : QSize) (g : ScreenGeom) : QPoint :=
  let yFlipped := if cursor.y + popup.height > g.bottom
    then cursor.y - popup.height else cursor.y
  let xRight := if cursor.x + popup.width > g.right
    then g.right - popup.width else cursor.x
  let xFinal := if xRight < g.left then g.left else xRight
  ⟨xFinal, yFlipped⟩

/-- set_click_through (src/crosshair_overlay_app.py lines 29-32): ORs the
layered (0x80000) and transparent (0x20) extended-style bits into the
window's style word. The style word is the Nat argument; the function
returns the new word written back by SetWindowLongW. -/
def set_click_through (style : Nat) : Nat :=
  style ||| 0x80000 ||| 0x20

/-- The two display modes of the window (spec's WindowMode). -/
inductive Mode where
  | Configuration
  | Overlay
deriving DecidableEq, Repr

/-- The action a QShortcut's activated signal is connected to. -/
inductive HotkeyAction where
  | toggleVisibility
  | quitApp
deriving DecidableEq, Repr

/-- A live QShortcut: its key-sequence string and its connected action. -/
structure Shortcut where
  keys : String
  action : HotkeyAction
deriving DecidableEq, Repr

/-- The primary screen's geometry as read by CrosshairApp._center. -/
structure Screen where
  left : Int
  top : Int
  width : Int
  height : Int
deriving DecidableEq, Repr

/-- The mutable state of CrosshairApp that the claims are about. -/
structure AppState where
  visible : Bool
  mode : Mode
  exstyle : Nat
  winSize : QSize
  winPos : QPoint
  controlsVisible : Bool
  pixmap : Option QSize
  current : Option String
  defaultImage : String
  currentHotkey : String
  liveShortcuts : List Shortcut
deriving DecidableEq, Repr

/-- WINDOW_SIZE = (400, 280) (src/crosshair_overlay_app.py line 17). -/
def WINDOW_SIZE : QSize := ⟨400, 280⟩

/-- CROSSHAIR_SIZE = 100 (src/crosshair_overlay_app.py line 16). -/
def CROSSHAIR_SIZE : Int := 100

/-- CrosshairApp._center (src/crosshair_overlay_app.py lines 279-285):
move to (geom.left + (geom.width - w) // 2, geom.top + (geom.height - h) // 2),
with Python floor division. -/
def centerOn (scr : Screen) (sz : QSize) : QPoint :=
  ⟨scr.left + Int.fdiv (scr.width - sz.width) 2,
   scr.top + Int.fdiv (scr.height - sz.height) 2⟩

/-- The window size _enter_overlay chooses: the displayed pixmap's size, or
CROSSHAIR_SIZE x CROSSHAIR_SIZE when no pixmap is loaded. -/
def overlaySize (pixmap : Option QSize) : QSize :=
  match pixmap with
  | some sz => sz
  | none => ⟨CROSSHAIR_SIZE, CROSSHAIR_SIZE⟩

/-- CrosshairApp._enter_overlay (src/crosshair_overlay_app.py lines 287-308):
hides the controls, sizes the window from the current pixmap (default
100x100), centers it, shows it, and applies set_click_through. -/
def enter_overlay (scr : Screen) (s : AppState) : AppState :=
  let sz := overlaySize s.pixmap
  { s with controlsVisible := false
         , winSize := sz
         , winPos := centerOn scr sz
         , visible := true
         , exstyle := set_click_through s.exstyle
         , mode := Mode.Overlay }

/-- CrosshairApp.show_settings (src/crosshair_overlay_app.py lines 310-321):
restores the fixed configuration window size, shows the controls, shows the
window and re-centers it. It does not touch the extended style word: the
source contains no call that clears the click-through bits. -/
def show_settings (scr : Screen) (s : AppState) : AppState :=
  { s with winSize := WINDOW_SIZE
         , controlsVisible := true
         , visible := true
         , winPos := centerOn scr WINDOW_SIZE
         , mode := Mode.Configuration }

/-- QWidget.hide as used by the controller: only visibility changes. -/
def hideWindow (s : AppState) : AppState :=
  { s with visible := false }

/-- CrosshairApp.show_overlay (src/crosshair_overlay_app.py lines 323-324). -/
def show_overlay (scr : Screen) (s : AppState) : AppState :=
  enter_overlay scr s

/-- CrosshairApp._toggle_visibility (src/crosshair_overlay_app.py lines
237-241): hide when visible, else show_overlay. -/
def toggle_visibility (scr : Screen) (s : AppState) : AppState :=
  if s.visible then hideWindow s else show_overlay scr s

/-- The out-of-scope image collaborator: file existence, QPixmap decoding
(none models a null pixmap), and the aspect-preserving scale to
CROSSHAIR_SIZE performed by pix.scaled. A decoded bitmap is represented by
its size. -/
structure ImgEnv where
  pathExists : String → Bool
  decode : String → Option QSize
  scale : QSize → QSize

/-- The path CrosshairApp.load_image actually opens
(src/crosshair_overlay_app.py line 253): the argument when it exists on
disk, else self.default_image. -/
def effectivePath (env : ImgEnv) (s : AppState) (path : String) : String :=
  if env.pathExists path then path else s.defaultImage

/-- CrosshairApp.load_image (src/crosshair_overlay_app.py lines 252-261):
substitute the default image for a nonexistent path; if the pixmap is null,
show a warning and return with no state change; otherwise display the
scaled pixmap and record the current path. The second component is the
path named in the warning box, when one was shown. -/
def load_image (env : ImgEnv) (s : AppState) (path : String) :
    AppState × Option String :=
  let p := effectivePath env s path
  match env.decode p with
  | none => (s, some p)
  | some pix =>
      let scaled := env.scale pix
      ({ s with pixmap := some scaled, current := some p }, none)

/-- CrosshairApp._init_hotkey (src/crosshair_overlay_app.py lines 227-235):
disconnect and drop the previous shortcut, then install one shortcut on the
current hotkey connected to _toggle_visibility. -/
def init_hotkey (s : AppState) : AppState :=
  { s with liveShortcuts := [⟨s.currentHotkey, HotkeyAction.toggleVisibility⟩] }

/-- One step of HotkeyDialog.keyPressEvent
(src/crosshair_overlay_app.py lines 59-64) on the stored key_sequence: the
captured sequence is kept only when its display string is non-empty. -/
def captureStep (acc : Option String) (e : String) : Option String :=
  if e = "" then acc else some e

/-- The key_sequence field of HotkeyDialog after a list of key events, each
given by the display string of QKeySequence(modifiers | key): the last
event whose display string is non-empty, none when there is no such event. -/
def captureKeySequence (events : List String) : Option String :=
  events.foldl captureStep none

/-- Outcome of HotkeyDialog.exec_. -/
inductive DialogResult where
  | accepted
  | rejected
deriving DecidableEq, Repr

/-- CrosshairApp._on_change_hotkey_clicked
(src/crosshair_overlay_app.py lines 243-250): only an accepted dialog with
a captured key sequence whose string is non-empty replaces the hotkey and
re-runs _init_hotkey; otherwise the state is unchanged. -/
def on_change_hotkey_clicked (res : DialogResult) (events : List String)
    (s : AppState) : AppState :=
  match res with
  | DialogResult.rejected => s
  | DialogResult.accepted =>
      match captureKeySequence events with
      | none => s
      | some k => if k = "" then s else init_hotkey { s with currentHotkey := k }

/-- Firing a shortcut: a shortcut connected to _toggle_visibility toggles
the window; one connected to QApplication.quit ends the process (none). -/
def fireShortcut (scr : Screen) (sc : Shortcut) (s : AppState) :
    Option AppState :=
  match sc.action with
  | HotkeyAction.toggleVisibility => some (toggle_visibility scr s)
  | HotkeyAction.quitApp => none

/-- _init_hotkey of the first program in src/Custom_Crosshair_v2.py
(lines 244-245): the shortcut is connected to _toggle_visibility. -/
def v2InitHotkeyShortcut (currentHotkey : String) : Shortcut :=
  ⟨currentHotkey, HotkeyAction.toggleVisibility⟩

/-- _init_hotkey of the embedded crosshair app.py iteration
(src/Custom_Crosshair_v2.py lines 534-535):
QShortcut(QKeySequence(HOTKEY), self, activated=QApplication.quit) — the
shortcut on HOTKEY = "Alt+S" is connected to QApplication.quit. -/
def crosshairAppPyHotkeyShortcut : Shortcut :=
  ⟨"Alt+S", HotkeyAction.quitApp⟩

/-- The event-driven operations of the controller, as delivered by buttons,
the tray and the hotkey. -/
inductive Op where
  | enterOverlayOp
  | showSettingsOp
  | toggleVisibilityOp
  | hideOp
  | loadImageOp (path : String)
  | resetOp
  | changeHotkeyOp (res : DialogResult) (events : List String)
deriving Repr

/-- One transition of the controller for an operation. resetOp is
_on_reset: load the default image, then show_settings. -/
def step (scr : Screen) (env : ImgEnv) (s : AppState) : Op → AppState
  | Op.enterOverlayOp => enter_overlay scr s
  | Op.showSettingsOp => show_settings scr s
  | Op.toggleVisibilityOp => toggle_visibility scr s
  | Op.hideOp => hideWindow s
  | Op.loadImageOp p => (load_image env s p).1
  | Op.resetOp => show_settings scr (load_image env s s.defaultImage).1
  | Op.changeHotkeyOp r es => on_change_hotkey_clicked r es s

/-- Running a list of operations in order. -/
def run (scr : Screen) (env : ImgEnv) (s : AppState) : List Op → AppState
  | [] => s
  | op :: rest => run scr env (step scr env s op) rest

/-- Both click-through extended-style bits, 0x80000 (bit 19) and
0x20 (bit 5), are set in a style word. -/
def hasClickThroughBits (style : Nat) : Bool :=
  style.testBit 19 && style.testBit 5

/-- The window's style word carries the click-through bits. -/
def clickThroughSet (s : AppState) : Bool :=
  hasClickThroughBits s.exstyle

lemma hasClickThroughBits_set_click_through (n : Nat) :
    hasClickThroughBits (set_click_through n) = true := by
  simp [hasClickThroughBits, set_click_through, Nat.testBit_lor]
  exact ⟨Or.inl (Or.inr (by decide)), Or.inr (by decide)⟩

/-- C3: the show_at placement follows the spec algorithm — start at the
cursor, a single vertical flip exactly when cursor.y plus the popup height
exceeds the screen bottom with no further vertical clamp, then the
right-edge x clamp, with the left-edge clamp applied last and taking
precedence — and the three worked examples hold: (100,100) stays put,
(100,950) flips to (100,870), (980,100) clamps to (950,100) on a
(0,0)-(1000,1000) screen with a 50x80 popup. -/
theorem show_at_follows_spec :
    (∀ pos popup g, show_at pos popup g = placeSpec pos popup g) ∧
    show_at ⟨100, 100⟩ ⟨50, 80⟩ ⟨0, 1000, 1000⟩ = ⟨100, 100⟩ ∧
    show_at ⟨100, 950⟩ ⟨50, 80⟩ ⟨0, 1000, 1000⟩ = ⟨100, 870⟩ ∧
    show_at ⟨980, 100⟩ ⟨50, 80⟩ ⟨0, 1000, 1000⟩ = ⟨950, 100⟩ :=
  ⟨fun _ _ _ => rfl, by decide, by decide, by decide⟩

/-- C8: set_click_through is idempotent — applying it twice to any style
word produces exactly the bits of applying it once. -/
theorem set_click_through_idempotent :
    ∀ style : Nat,
      set_click_through (set_click_through style) = set_click_through style := by
  intro style
  apply Nat.eq_of_testBit_eq
  intro i
  simp only [set_click_through, Nat.testBit_lor]
  cases style.testBit i <;> cases Nat.testBit 524288 i <;>
    cases Nat.testBit 32 i <;> rfl

/-- C9: the popup placement computation is deterministic — equal cursor
positions, popup sizes and screen bounds give equal placement points; the
computation reads no other state. -/
theorem show_at_deterministic (p1 p2 : QPoint) (s1 s2 : QSize)
    (g1 g2 : ScreenGeom) (hp : p1 = p2) (hs : s1 = s2) (hg : g1 = g2) :
    show_at p1 s1 g1 = show_at p2 s2 g2 := by
  subst hp hs hg
  rfl

/-- Witness for C9 at concrete inputs. -/
theorem show_at_deterministic_witness :
    ((⟨3, 4⟩ : QPoint) = ⟨3, 4⟩) ∧
    show_at ⟨3, 4⟩ ⟨5, 6⟩ ⟨0, 100, 100⟩ = show_at ⟨3, 4⟩ ⟨5, 6⟩ ⟨0, 100, 100⟩ :=
  ⟨rfl, show_at_deterministic ⟨3, 4⟩ ⟨3, 4⟩ ⟨5, 6⟩ ⟨5, 6⟩
    ⟨0, 100, 100⟩ ⟨0, 100, 100⟩ rfl rfl rfl⟩

/-- A concrete primary screen with origin (0, 0). -/
def sampleScreen : Screen := ⟨0, 0, 1920, 1080⟩

/-- A concrete visible Configuration-mode state, as right after startup. -/
def configState : AppState :=
  { visible := true
  , mode := Mode.Configuration
  , exstyle := 0
  , winSize := WINDOW_SIZE
  , winPos := ⟨760, 400⟩
  , controlsVisible := true
  , pixmap := some ⟨100, 100⟩
  , current := some "crosshair.png"
  , defaultImage := "crosshair.png"
  , currentHotkey := "Alt+S"
  , liveShortcuts := [⟨"Alt+S", HotkeyAction.toggleVisibility⟩] }

/-- C1 (code-bug record): show_settings never touches the extended style
word — the source contains no style-clearing call — so after Overlay Mode
applied the click-through bits, entering Configuration Mode leaves them
set, contrary to the claim that the window is then not click-through. -/
theorem show_settings_leaves_click_through (scr : Screen) (s : AppState) :
    (show_settings scr s).exstyle = s.exstyle ∧
    clickThroughSet (show_settings scr (enter_overlay scr s)) = true := by
  refine ⟨rfl, ?_⟩
  simpa [clickThroughSet, show_settings, enter_overlay] using
    hasClickThroughBits_set_click_through s.exstyle

/-- C2 counterexample: from a visible Configuration-mode state, two
immediate toggle_visibility calls end in Overlay Mode; the original mode is
not restored. -/
theorem toggle_twice_mode_counterexample :
    (toggle_visibility sampleScreen
        (toggle_visibility sampleScreen configState)).mode ≠
      configState.mode := by decide

/-- C2 (amended): two immediate toggle_visibility calls restore the
original visibility, but the resulting mode is always Overlay — showing a
hidden window calls show_overlay unconditionally, so there is no
last_active_mode memory and the original mode is resumed only when it
already was Overlay. -/
theorem toggle_twice_visibility_restored (scr : Screen) (s : AppState) :
    (toggle_visibility scr (toggle_visibility scr s)).visible = s.visible ∧
    (toggle_visibility scr (toggle_visibility scr s)).mode = Mode.Overlay := by
  cases hv : s.visible <;>
    simp [toggle_visibility, hideWindow, show_overlay, enter_overlay, hv]

/-- C7: enter_overlay recomputes its geometry fresh from the displayed
pixmap (the 100x100 default when none is loaded), centers the window at
((screen_width - w) // 2, (screen_height - h) // 2) on a primary screen
with origin (0, 0), makes it visible, and the geometry depends only on the
pixmap — never on geometry cached from a previous entry. -/
theorem enter_overlay_geometry (scr : Screen) (s t : AppState)
    (h0 : scr.left = 0) (h1 : scr.top = 0) :
    (enter_overlay scr s).visible = true ∧
    (enter_overlay scr s).winSize = overlaySize s.pixmap ∧
    (s.pixmap = none → (enter_overlay scr s).winSize = ⟨100, 100⟩) ∧
    (enter_overlay scr s).winPos =
      ⟨Int.fdiv (scr.width - (overlaySize s.pixmap).width) 2,
       Int.fdiv (scr.height - (overlaySize s.pixmap).height) 2⟩ ∧
    (s.pixmap = t.pixmap →
      (enter_overlay scr s).winSize = (enter_overlay scr t).winSize ∧
      (enter_overlay scr s).winPos = (enter_overlay scr t).winPos) := by
  refine ⟨rfl, rfl, ?_, ?_, ?_⟩
  · intro hp
    simp [overlaySize, enter_overlay, hp, CROSSHAIR_SIZE]
  · simp [enter_overlay, centerOn, h0, h1]
  · intro hp
    simp [enter_overlay, centerOn, hp]

/-- Witness for C7 at the sample screen and startup state. -/
theorem enter_overlay_geometry_witness :
    (enter_overlay sampleScreen configState).visible = true ∧
    (enter_overlay sampleScreen configState).winSize =
      overlaySize configState.pixmap :=
  ⟨(enter_overlay_geometry sampleScreen configState configState rfl rfl).1,
   (enter_overlay_geometry sampleScreen configState configState rfl rfl).2.1⟩

lemma exstyle_load_image (env : ImgEnv) (s : AppState) (p : String) :
    (load_image env s p).1.exstyle = s.exstyle := by
  simp only [load_image]
  cases env.decode (effectivePath env s p) <;> rfl

lemma exstyle_on_change_hotkey (res : DialogResult) (events : List String)
    (s : AppState) :
    (on_change_hotkey_clicked res events s).exstyle = s.exstyle := by
  cases res with
  | rejected => rfl
  | accepted =>
      simp only [on_change_hotkey_clicked]
      cases captureKeySequence events with
      | none => rfl
      | some k =>
          by_cases hk : k = ""
          · simp [hk]
          · simp [hk, init_hotkey]

lemma clickThroughSet_step (scr : Screen) (env : ImgEnv) (s : AppState)
    (op : Op) (h : clickThroughSet s = true) :
    clickThroughSet (step scr env s op) = true := by
  cases op with
  | enterOverlayOp =>
      simpa [step, clickThroughSet, enter_overlay] using
        hasClickThroughBits_set_click_through s.exstyle
  | showSettingsOp =>
      simpa [step, clickThroughSet, show_settings] using h
  | toggleVisibilityOp =>
      cases hv : s.visible with
      | true =>
          simpa [step, toggle_visibility, hv, hideWindow, clickThroughSet] using h
      | false =>
          simpa [step, toggle_visibility, hv, show_overlay, enter_overlay,
            clickThroughSet] using hasClickThroughBits_set_click_through s.exstyle
  | hideOp =>
      simpa [step, hideWindow, clickThroughSet] using h
  | loadImageOp p =>
      have hx := exstyle_load_image env s p
      simpa [step, clickThroughSet, hx] using h
  | resetOp =>
      have hx := exstyle_load_image env s s.defaultImage
      simpa [step, clickThroughSet, show_settings, hx] using h
  | changeHotkeyOp r es =>
      have hx := exstyle_on_change_hotkey r es s
      simpa [step, clickThroughSet, hx] using h

lemma clickThroughSet_run (scr : Screen) (env : ImgEnv) (ops : List Op) :
    ∀ s : AppState, clickThroughSet s = true →
      clickThroughSet (run scr env s ops) = true := by
  induction ops with
  | nil =>
      intro s h
      simpa [run] using h
  | cons op rest ih =>
      intro s h
      simpa [run] using ih (step scr env s op) (clickThroughSet_step scr env s op h)

/-- C10: the click-through style bits are monotone — set_click_through only
ORs the bits 0x80000 and 0x20 in and no operation of the program clears
them, so from the first entry into Overlay Mode every state reachable by
any sequence of controller operations (including entering Configuration
Mode) still carries both bits. -/
theorem click_through_bits_monotone (scr : Screen) (env : ImgEnv)
    (s : AppState) (ops : List Op) :
    clickThroughSet (run scr env (enter_overlay scr s) ops) = true :=
  clickThroughSet_run scr env ops (enter_overlay scr s)
    (by simpa [clickThroughSet, enter_overlay] using
      hasClickThroughBits_set_click_through s.exstyle)

/-- A concrete image environment for witnesses: only the bundled default
image exists and decodes (to a 64x32 bitmap); scaling is the identity. -/
def witnessEnv : ImgEnv where
  pathExists := fun p => p == "crosshair.png"
  decode := fun p => if p == "crosshair.png" then some ⟨64, 32⟩ else none
  scale := fun sz => sz

/-- C4: load_image substitutes the bundled default image for a nonexistent
path, so a decodable default is displayed rather than nothing; and when the
decoded pixmap is null it reports the error and returns with the displayed
pixmap and the stored current path unchanged (error atomicity). -/
theorem load_image_fallback_and_atomic (env : ImgEnv) (s : AppState)
    (path : String) :
    (env.pathExists path = false →
      effectivePath env s path = s.defaultImage ∧
      ∀ pix, env.decode s.defaultImage = some pix →
        (load_image env s path).1.pixmap = some (env.scale pix) ∧
        (load_image env s path).1.current = some s.defaultImage) ∧
    (env.decode (effectivePath env s path) = none →
      (load_image env s path).1 = s ∧
      (load_image env s path).2 = some (effectivePath env s path)) := by
  constructor
  · intro hne
    have he : effectivePath env s path = s.defaultImage := by
      simp [effectivePath, hne]
    refine ⟨he, ?_⟩
    intro pix hdec
    simp [load_image, he, hdec]
  · intro hdec
    simp [load_image, hdec]

/-- Witness for C4: loading a missing path in the witness environment
displays the scaled default bitmap and records the default path. -/
theorem load_image_fallback_witness :
    (load_image witnessEnv configState "missing.png").1.pixmap =
      some (witnessEnv.scale ⟨64, 32⟩) ∧
    (load_image witnessEnv configState "missing.png").1.current =
      some configState.defaultImage :=
  ((load_image_fallback_and_atomic witnessEnv configState "missing.png").1
      (by decide)).2 ⟨64, 32⟩ (by decide)

/-- C5: a rejected dialog or an invalid capture (every event's display
string empty, so no key sequence was kept) leaves the state — and hence the
previously live toggle binding — unchanged; the hotkey is replaced exactly
when a non-empty captured sequence is accepted; afterwards exactly one
shortcut is live, it is bound to the current hotkey and to the visibility
toggle, and firing it toggles visibility. -/
theorem rebind_keeps_prior_binding (res : DialogResult) (events : List String)
    (s : AppState)
    (hlive : s.liveShortcuts =
      [⟨s.currentHotkey, HotkeyAction.toggleVisibility⟩]) :
    ((res = DialogResult.rejected ∨ captureKeySequence events = none) →
      on_change_hotkey_clicked res events s = s) ∧
    (on_change_hotkey_clicked res events s).liveShortcuts =
      [⟨(on_change_hotkey_clicked res events s).currentHotkey,
        HotkeyAction.toggleVisibility⟩] ∧
    (on_change_hotkey_clicked res events s).liveShortcuts.length = 1 ∧
    (∀ k, res = DialogResult.accepted → captureKeySequence events = some k →
      k ≠ "" → (on_change_hotkey_clicked res events s).currentHotkey = k) ∧
    (∀ scr t sc, sc ∈ (on_change_hotkey_clicked res events s).liveShortcuts →
      fireShortcut scr sc t = some (toggle_visibility scr t)) := by
  have hmain : (on_change_hotkey_clicked res events s).liveShortcuts =
      [⟨(on_change_hotkey_clicked res events s).currentHotkey,
        HotkeyAction.toggleVisibility⟩] := by
    cases res with
    | rejected => simpa [on_change_hotkey_clicked] using hlive
    | accepted =>
        simp only [on_change_hotkey_clicked]
        cases hc : captureKeySequence events with
        | none => simpa using hlive
        | some k =>
            by_cases hk : k = ""
            · simpa [hk] using hlive
            · simp [hk, init_hotkey]
  refine ⟨?_, hmain, by rw [hmain]; rfl, ?_, ?_⟩
  · rintro (hr | hc)
    · subst hr
      rfl
    · cases res with
      | rejected => rfl
      | accepted => simp [on_change_hotkey_clicked, hc]
  · intro k hr hc hk
    subst hr
    simp [on_change_hotkey_clicked, hc, hk, init_hotkey]
  · intro scr t sc hmem
    rw [hmain] at hmem
    simp only [List.mem_singleton] at hmem
    subst hmem
    rfl

/-- Witness for C5: an accepted dialog whose every key event has an empty
display string changes nothing. -/
theorem rebind_keeps_prior_binding_witness :
    on_change_hotkey_clicked DialogResult.accepted ["", ""] configState =
      configState :=
  (rebind_keeps_prior_binding DialogResult.accepted ["", ""] configState
      (by decide)).1 (Or.inr (by decide))

/-- C6 counterexample: in the embedded crosshair app.py iteration the
active hotkey's shortcut is connected to QApplication.quit, so firing it
ends the process instead of toggling visibility. -/
theorem hotkey_fires_quit_counterexample :
    fireShortcut sampleScreen crosshairAppPyHotkeyShortcut configState = none ∧
    crosshairAppPyHotkeyShortcut.action ≠ HotkeyAction.toggleVisibility :=
  ⟨rfl, by decide⟩

/-- C6 (amended): in crosshair_overlay_app.py and in the first program of
Custom_Crosshair_v2.py the shortcut installed by _init_hotkey is connected
to the visibility toggle and firing it toggles the window; in the embedded
crosshair app.py iteration (Custom_Crosshair_v2.py lines 534-535) the
shortcut is connected to QApplication.quit and firing it quits instead. -/
theorem hotkey_callback_per_iteration (scr : Screen) (s t : AppState)
    (hk : String) :
    (init_hotkey s).liveShortcuts =
      [⟨s.currentHotkey, HotkeyAction.toggleVisibility⟩] ∧
    fireShortcut scr ⟨s.currentHotkey, HotkeyAction.toggleVisibility⟩ t =
      some (toggle_visibility scr t) ∧
    fireShortcut scr (v2InitHotkeyShortcut hk) t =
      some (toggle_visibility scr t) ∧
    fireShortcut scr crosshairAppPyHotkeyShortcut t = none :=
  ⟨rfl, rfl, rfl, rfl⟩

end CustomCrosshair
